import Mathlib

/-!
Verification of the HTTP client core of a Binance REST API client
(`src/http-client.js`): the query-string encoder, the result unwrapper,
the parameter validator, the public / key / private callers, and the
futures order wrapper.

The JavaScript source is shallowly embedded: JS scalar values are the
inductive `JsVal` (with `nan` for the NaN number and `undefVal` for
`undefined`), JS objects are insertion-ordered association lists
(`Payload`), promise sequencing inside one call is made explicit by an
event trace, and external collaborators (the HMAC primitive of the
`crypto` module, `JSON.parse`, the clock and the server-time response)
are parameters of the embedded functions.
-/

namespace BinanceHttp

/-- A JavaScript scalar value as it can appear in a request payload. -/
inductive JsVal where
  | str : String → JsVal
  | num : Int → JsVal
  | nan : JsVal
  | bool : Bool → JsVal
  | null : JsVal
  | undefVal : JsVal
deriving DecidableEq, BEq, Repr, Inhabited

/-- JS truthiness: `''`, `0`, `NaN`, `false`, `null`, `undefined` are falsy. -/
def JsVal.truthy : JsVal → Bool
  | .str s => decide (s ≠ "")
  | .num n => decide (n ≠ 0)
  | .nan => false
  | .bool b => b
  | .null => false
  | .undefVal => false

/-- JS `String(v)` coercion, as used by template interpolation. -/
def JsVal.toStr : JsVal → String
  | .str s => s
  | .num n => toString n
  | .nan => "NaN"
  | .bool b => if b then "true" else "false"
  | .null => "null"
  | .undefVal => "undefined"

/-- A JS object: insertion-ordered association list with distinct keys. -/
abbrev Payload := List (String × JsVal)

/-- JS property read `o[k]`: `undefined` when the key is absent. -/
def objGet (o : Payload) (k : String) : JsVal :=
  match o.find? (fun p => p.1 == k) with
  | some p => p.2
  | none => .undefVal

/-- JS `delete o[k]`. -/
def objDelete (o : Payload) (k : String) : Payload :=
  o.filter (fun p => p.1 != k)

/-- JS property write `o[k] = v` (also the overwrite step of an object
spread): an existing key keeps its position, a new key is appended. -/
def objSet (o : Payload) (k : String) (v : JsVal) : Payload :=
  if o.any (fun p => p.1 == k) then
    o.map (fun p => if p.1 == k then (k, v) else p)
  else o ++ [(k, v)]

/-- JS object spread `\x7b ...o, ...p \x7d`: write every pair of `p` onto `o`. -/
def objAssign (o : Payload) (p : Payload) : Payload :=
  p.foldl (fun acc kv => objSet acc kv.1 kv.2) o

/-- Uppercase hex digit of a number below 16. -/
def hexDigit (n : Nat) : Char :=
  if n < 10 then Char.ofNat (48 + n) else Char.ofNat (55 + n)

/-- UTF-8 bytes of a character (as used by `encodeURIComponent`). -/
def utf8Bytes (c : Char) : List Nat :=
  let n := c.toNat
  if n < 128 then [n]
  else if n < 2048 then [192 + n / 64, 128 + n % 64]
  else if n < 65536 then [224 + n / 4096, 128 + (n / 64) % 64, 128 + n % 64]
  else [240 + n / 262144, 128 + (n / 4096) % 64, 128 + (n / 64) % 64, 128 + n % 64]

/-- Characters `encodeURIComponent` leaves unescaped: ASCII letters and
digits and `- _ . ! ~ * ' ( )` (code points 45 95 46 33 126 42 39 40 41). -/
def uriUnescaped (c : Char) : Bool :=
  let n := c.toNat
  (65 ≤ n && n ≤ 90) || (97 ≤ n && n ≤ 122) || (48 ≤ n && n ≤ 57) ||
  n == 45 || n == 95 || n == 46 || n == 33 || n == 126 ||
  n == 42 || n == 39 || n == 40 || n == 41

/-- Percent-escape of one byte, uppercase hex. -/
def pctByte (b : Nat) : String :=
  String.mk [Char.ofNat 37, hexDigit (b / 16), hexDigit (b % 16)]

/-- The ECMAScript `encodeURIComponent` function. -/
def encodeURIComponent (s : String) : String :=
  String.join (s.toList.map (fun c =>
    if uriUnescaped c then String.mk [c]
    else String.join ((utf8Bytes c).map pctByte)))

/-- One rendered `key=value` pair of the query string. -/
def queryPair (p : String × JsVal) : String :=
  encodeURIComponent p.1 ++ "=" ++ encodeURIComponent p.2.toStr

/-- `makeQueryString` from the source: for a present (truthy) object,
a leading question mark followed by the pairs whose values are truthy,
rendered in insertion order and joined by ampersands; for an absent
(falsy) argument, the empty string. -/
def makeQueryString : Option Payload → String
  | none => ""
  | some q =>
      "?" ++ String.intercalate "&"
        ((q.filter (fun p => p.2.truthy)).map queryPair)

/-- The Query Encoder as section 4.1 / 8 of the spec words it: drop the
falsy-valued keys (in insertion order), render each remaining pair
percent-encoded, and join after a leading question mark; an empty or
absent mapping yields the empty string with no leading question mark. -/
def specQueryString (q : Option Payload) : String :=
  match q with
  | none => ""
  | some m =>
      if m.isEmpty then ""
      else "?" ++ String.intercalate "&"
        (m.foldr (fun p acc => if p.2.truthy then queryPair p :: acc else acc) [])

/-- The spec's Query Encoder description amended at the one point the code
differs: a present mapping always yields a leading question mark, even
when it is empty; only an absent mapping yields the empty string. -/
def specQueryStringAmended (q : Option Payload) : String :=
  match q with
  | none => ""
  | some m =>
      "?" ++ String.intercalate "&"
        (m.foldr (fun p acc => if p.2.truthy then queryPair p :: acc else acc) [])

/-- JS whitespace characters that `Number(s)` strips. -/
def isJsSpace (c : Char) : Bool :=
  c.toNat == 32 || c.toNat == 9 || c.toNat == 10 ||
  c.toNat == 13 || c.toNat == 12 || c.toNat == 11

/-- All characters are decimal digits. -/
def digitsOnly (l : List Char) : Bool :=
  l.all (fun c => 48 ≤ c.toNat && c.toNat ≤ 57)

/-- Recognizer for the decimal numeric strings that JS `Number(s)` accepts
(optional sign, digits with an optional fraction dot, surrounding
whitespace); the empty and all-whitespace strings coerce to `0`.
Exponent and radix-prefixed literals are not used by this client and are
not modelled. -/
def strCoercesToNumber (s : String) : Bool :=
  let t := ((s.toList.dropWhile isJsSpace).reverse.dropWhile isJsSpace).reverse
  match t with
  | [] => true
  | c :: rest =>
      let cs := if c.toNat == 43 || c.toNat == 45 then rest else c :: rest
      match cs.span (fun d => d.toNat != 46) with
      | (a, []) => ! a.isEmpty && digitsOnly a
      | (a, _ :: b) => (! a.isEmpty || ! b.isEmpty) && digitsOnly a && digitsOnly b

/-- The JS global `isNaN(v)`: coerce `v` to a number and test for NaN.
`undefined` and NaN coerce to NaN; `null`, booleans and the empty string
coerce to `0`; a string is NaN exactly when it is not numeric. -/
def jsIsNaN : JsVal → Bool
  | .undefVal => true
  | .null => false
  | .bool _ => false
  | .num _ => false
  | .nan => true
  | .str s => ! strCoercesToNumber s

/-- The test of `checkParams` for one required field: the value is falsy
and its numeric coercion is NaN. -/
def jsMissing (v : JsVal) : Bool :=
  ! v.truthy && jsIsNaN v

/-- The `requires.forEach` loop of `checkParams`: throw at the first
required field whose value is falsy and NaN-coercing. -/
def checkRequired (name : String) (payload : Payload) : List String → Except String Bool
  | [] => .ok true
  | r :: rest =>
      if jsMissing (objGet payload r) then
        .error ("Method " ++ name ++ " requires " ++ r ++ " parameter.")
      else checkRequired name payload rest

/-- `checkParams` from the source: reject an absent payload outright,
then scan the required fields in order. -/
def checkParams (name : String) (payload : Option Payload) (requires : List String) :
    Except String Bool :=
  match payload with
  | none => .error "You need to pass a payload object."
  | some p => checkRequired name p requires

/-- An HTTP response as the fetch collaborator delivers it; `bodyJson`
is the value `res.json()` would resolve to on a success body. -/
structure Response where
  ok : Bool
  status : Nat
  statusText : String
  bodyText : String
  bodyJson : JsVal
deriving DecidableEq, Repr

/-- The two fields `sendResult` reads from a JSON-parsed error body
(`undefVal` stands for an absent field). -/
structure JsonBody where
  msg : JsVal
  code : JsVal
deriving DecidableEq, Repr

/-- The classified errors `sendResult` can throw. -/
inductive CallError where
  | apiError (message : String) (code : JsVal)
  | transportError (message : String) (response : Response) (responseText : String)
deriving DecidableEq, Repr

/-- `sendResult` from the source. `parseJson` embeds `JSON.parse`
(`none` = the parse throws). On a non-ok response: a parsable body
becomes an API error with message `msg || "<status> <statusText>"` and
the parsed `code` attached; an unparsable body becomes a transport error
with message `"<status> <statusText> <text>"` and the raw response and
text attached. -/
def sendResult (parseJson : String → Option JsonBody) (res : Response) :
    Except CallError JsVal :=
  if res.ok then .ok res.bodyJson
  else
    match parseJson res.bodyText with
    | some j =>
        .error (.apiError
          (if j.msg.truthy then j.msg.toStr
           else toString res.status ++ " " ++ res.statusText)
          j.code)
    | none =>
        .error (.transportError
          (toString res.status ++ " " ++ res.statusText ++ " " ++ res.bodyText)
          res res.bodyText)

/-- The request a caller hands to the fetch collaborator. -/
structure Request where
  url : String
  method : String
  headers : List (String × String)
deriving DecidableEq, Repr, Inhabited

/-- The argument object of `publicCall` (the `agent` pass-through is
opaque and omitted). -/
structure PubArgs where
  path : String
  data : Option Payload := none
  method : String := "GET"
  headers : List (String × String) := []
deriving Repr

/-- `publicCall`: build `base/apiPathBase<path><query>` with the given
method and headers. -/
def publicCall (base apiPathBase : String) (a : PubArgs) : Request :=
  { url := base ++ "/" ++ apiPathBase ++ a.path ++ makeQueryString a.data,
    method := a.method,
    headers := a.headers }

/-- `keyCall`: reject a missing API key, otherwise delegate to
`publicCall` with the `X-MBX-APIKEY` header as the only header. -/
def keyCall (apiKey : String) (base apiPathBase : String) (a : PubArgs) :
    Except String Request :=
  if apiKey = "" then .error "You need to pass an API key to make this call."
  else .ok (publicCall base apiPathBase
    { path := a.path, data := a.data, method := a.method,
      headers := [("X-MBX-APIKEY", apiKey)] })

/-- The two time sources a private call can draw from: the `serverTime`
field of the public time endpoint's response, and the configured
`getTime` clock (default `Date.now()`). -/
structure ClockEnv where
  serverTime : Int
  clockTime : Int
deriving DecidableEq, Repr

/-- The argument object of `privateCall`. `data := none` embeds an
explicit `null` payload, the default `some []` the JS default `\x7b\x7d`.
The source destructures only `noExtra`; `noExtraData` is carried here
because some exported operations pass a key of that name, which the
destructuring ignores. -/
structure PrivArgs where
  path : String
  data : Option Payload := some []
  method : String := "GET"
  noData : Bool := false
  noExtra : Bool := false
  noExtraData : Bool := false
deriving Repr

/-- The observable steps of one private call, in promise order. -/
inductive Event where
  | serverTimeFetch
  | signCompute (message : String)
  | mainRequest (url : String)
deriving DecidableEq, Repr

/-- What one successful run of `privateCall` produced: the issued
request, the final params (`newData`), the signature and the message it
was computed over, the timestamp that entered the signature, the
caller's data object as the call leaves it, and the event trace. -/
structure PrivResult where
  request : Request
  params : Option Payload
  signature : String
  usedTimestamp : Int
  sigMessage : String
  callerData : Option Payload
  events : List Event
deriving DecidableEq, Repr, Inhabited

/-- The needle is a prefix of the haystack (character lists). -/
def listStartsWith : List Char → List Char → Bool
  | _, [] => true
  | [], _ :: _ => false
  | c :: cs, d :: ds => c == d && listStartsWith cs ds

/-- The needle occurs somewhere in the haystack (character lists). -/
def listContainsSub : List Char → List Char → Bool
  | [], sub => sub.isEmpty
  | l@(_ :: rest), sub => listStartsWith l sub || listContainsSub rest sub

/-- JS `s.includes(sub)` for the path tests of `privateCall`. -/
def strContains (s sub : String) : Bool :=
  listContainsSub s.toList sub.toList

/-- The `data && data.useServerTime` test of `privateCall`. -/
def wantsServerTime (a : PrivArgs) : Bool :=
  match a.data with
  | some d => (objGet d "useServerTime").truthy
  | none => false

/-- `privateCall` from the source, with the HMAC-SHA256 hex primitive of
the `crypto` module abstracted as `hmacSha256Hex secret message`.
Credentials are checked first; the timestamp is the fetched server time
when the payload asks for it and the configured clock otherwise;
`useServerTime` is then deleted from the caller's data; the signature is
computed over the query rendering of the data plus `timestamp` with the
leading question mark dropped; `noExtra` selects whether `timestamp` and
`signature` are appended; the URL drops the path-prefix segment for
`/wapi` and `/sapi` paths and drops the query under `noData`. -/
def privateCall (apiKey apiSecret base apiPathBase : String)
    (hmacSha256Hex : String → String → String) (env : ClockEnv) (a : PrivArgs) :
    Except String PrivResult :=
  if apiKey = "" ∨ apiSecret = "" then
    .error "You need to pass an API key and secret to make authenticated calls."
  else
    let timestamp : Int := if wantsServerTime a then env.serverTime else env.clockTime
    let data1 : Option Payload := a.data.map (fun d => objDelete d "useServerTime")
    let message := (makeQueryString
      (some (objSet (data1.getD []) "timestamp" (.num timestamp)))).drop 1
    let signature := hmacSha256Hex apiSecret message
    let newData : Option Payload :=
      if a.noExtra then data1
      else some (objSet (objSet (data1.getD []) "timestamp" (.num timestamp))
        "signature" (.str signature))
    let url := base
      ++ (if strContains a.path "/wapi" || strContains a.path "/sapi" then ""
          else "/" ++ apiPathBase)
      ++ a.path
      ++ (if a.noData then "" else makeQueryString newData)
    .ok {
      request := { url := url, method := a.method,
                   headers := [("X-MBX-APIKEY", apiKey)] },
      params := newData,
      signature := signature,
      usedTimestamp := timestamp,
      sigMessage := message,
      callerData := data1,
      events := (if wantsServerTime a then [Event.serverTimeFetch] else [])
        ++ [Event.signCompute message, Event.mainRequest url] }

/-- `futuresOrder` from the source, up to the hand-off to `privCall`.
Returns the outcome (the data `privCall` would receive, or the thrown
message) together with the caller's payload object as the wrapper leaves
it: the source first spread-copies `newPayload` (adding a GTC
`timeInForce` for limit-like or absent types), then mutates the original
payload with `payload.type = 'LIMIT'` when the type is absent, and
validates `newPayload` against the per-type required-field list computed
from the mutated original. -/
def futuresOrder (payload : Payload) : Except String Payload × Payload :=
  let typeV := objGet payload "type"
  let newPayload :=
    if typeV == .str "LIMIT" || typeV == .str "STOP" || typeV == .str "TAKE_PROFIT"
        || ! typeV.truthy then
      objAssign [("timeInForce", JsVal.str "GTC")] payload
    else payload
  let payload1 := if ! typeV.truthy then objSet payload "type" (.str "LIMIT") else payload
  let t1 := objGet payload1 "type"
  if t1.truthy && t1 == .str "MARKET" && (objGet payload1 "timeInForce").truthy then
    (.error "timeInForce parameter cannot be send with type MARKET", payload1)
  else
    let requires := ["symbol", "side", "type", "quantity"]
      ++ (if t1.truthy && t1 == .str "LIMIT" then ["price", "timeInForce"] else [])
      ++ (if t1.truthy && (t1 == .str "STOP" || t1 == .str "TAKE_PROFIT") then
            ["price", "stopPrice"] else [])
      ++ (if t1.truthy && (t1 == .str "STOP_MARKET" || t1 == .str "TAKE_PROFIT_MARKET")
          then ["stopPrice"] else [])
    match checkParams "futuresOrder" (some newPayload) requires with
    | .error e => (.error e, payload1)
    | .ok _ => (.ok newPayload, payload1)

/-- The `privateCall` argument object built by the four data-stream
keep/close operations: they pass `noData: false` and an option key named
`noExtraData: true`, and never one named `noExtra`. -/
def dataStreamArgs (path method : String) (payload : Option Payload) : PrivArgs :=
  { path := path, data := payload, method := method,
    noData := false, noExtra := false, noExtraData := true }

/-- Exported `keepDataStream`: PUT `/v1/userDataStream` with
`noData: false, noExtraData: true`. -/
def keepDataStream (apiKey apiSecret base apiPathBase : String)
    (hmacSha256Hex : String → String → String) (env : ClockEnv)
    (payload : Option Payload) : Except String PrivResult :=
  privateCall apiKey apiSecret base apiPathBase hmacSha256Hex env
    (dataStreamArgs "/v1/userDataStream" "PUT" payload)

/-- Exported `closeDataStream`: DELETE `/v1/userDataStream` with
`noData: false, noExtraData: true`. -/
def closeDataStream (apiKey apiSecret base apiPathBase : String)
    (hmacSha256Hex : String → String → String) (env : ClockEnv)
    (payload : Option Payload) : Except String PrivResult :=
  privateCall apiKey apiSecret base apiPathBase hmacSha256Hex env
    (dataStreamArgs "/v1/userDataStream" "DELETE" payload)

/-- Exported `futuresKeepUserDataStream`: PUT `/v1/listenKey` with
`noData: false, noExtraData: true` (against the futures base). -/
def futuresKeepUserDataStream (apiKey apiSecret base apiPathBase : String)
    (hmacSha256Hex : String → String → String) (env : ClockEnv)
    (payload : Option Payload) : Except String PrivResult :=
  privateCall apiKey apiSecret base apiPathBase hmacSha256Hex env
    (dataStreamArgs "/v1/listenKey" "PUT" payload)

/-- Exported `futuresCloseUserDataStream`: DELETE `/v1/listenKey` with
`noData: false, noExtraData: true` (against the futures base). -/
def futuresCloseUserDataStream (apiKey apiSecret base apiPathBase : String)
    (hmacSha256Hex : String → String → String) (env : ClockEnv)
    (payload : Option Payload) : Except String PrivResult :=
  privateCall apiKey apiSecret base apiPathBase hmacSha256Hex env
    (dataStreamArgs "/v1/listenKey" "DELETE" payload)

/-! Witness fixtures: concrete credentials, clock, payloads and results. -/

/-- A concrete stand-in for the abstract HMAC-SHA256 hex primitive. -/
def wHmac : String → String → String := fun k m => k ++ ":" ++ m

/-- A concrete clock environment: server time 111, local clock 222. -/
def wEnv : ClockEnv := { serverTime := 111, clockTime := 222 }

/-- A concrete signed-call payload without `useServerTime`. -/
def wPayload : Payload := [("symbol", JsVal.str "BTCUSDT")]

/-- A concrete `privateCall` argument object over `wPayload`. -/
def wArgs : PrivArgs := { path := "/v3/order", data := some wPayload }

/-- The result of the concrete private call over `wArgs`. -/
def wPriv : PrivResult :=
  match privateCall "key" "secret" "B" "api" wHmac wEnv wArgs with
  | .ok r => r
  | .error _ => default

/-- A concrete payload carrying a truthy `useServerTime` flag. -/
def wPayloadST : Payload :=
  [("symbol", JsVal.str "BTCUSDT"), ("useServerTime", JsVal.bool true)]

/-- A concrete `privateCall` argument object over `wPayloadST`. -/
def wArgsST : PrivArgs := { path := "/v3/order", data := some wPayloadST }

/-- The result of the concrete private call over `wArgsST`. -/
def wPrivST : PrivResult :=
  match privateCall "key" "secret" "B" "api" wHmac wEnv wArgsST with
  | .ok r => r
  | .error _ => default

/-- A concrete public-call argument object. -/
def wPub : PubArgs := { path := "/v1/trades", data := some wPayload }

/-- A concrete `JSON.parse` embedding: one recognized API error body. -/
def wParse : String → Option JsonBody := fun t =>
  if t = "errbody" then
    some { msg := JsVal.str "Invalid symbol.", code := JsVal.num (-1121) }
  else none

/-- A failed response whose body is the recognized JSON error body. -/
def wRes1 : Response :=
  { ok := false, status := 400, statusText := "Bad Request",
    bodyText := "errbody", bodyJson := JsVal.null }

/-- A failed response whose body is an HTML proxy page. -/
def wRes2 : Response :=
  { ok := false, status := 502, statusText := "Bad Gateway",
    bodyText := "<html>502 Bad Gateway</html>", bodyJson := JsVal.null }

/-- A concrete data-stream payload. -/
def wDSPayload : Option Payload := some [("listenKey", JsVal.str "abc")]

/-- The result of the concrete keep-data-stream private call. -/
def wDS : PrivResult :=
  match privateCall "key" "secret" "B" "api" wHmac wEnv
      (dataStreamArgs "/v1/userDataStream" "PUT" wDSPayload) with
  | .ok r => r
  | .error _ => default

/-! Helper lemmas about the payload-object operations and the validator. -/

theorem foldr_truthy_eq_filter_map (m : Payload) :
    m.foldr (fun p acc => if p.2.truthy then queryPair p :: acc else acc) []
      = (m.filter (fun p => p.2.truthy)).map queryPair := by
  induction m with
  | nil => rfl
  | cons h t ih => by_cases hh : h.2.truthy <;> simp [List.filter_cons, hh, ih]

theorem checkRequired_ok_iff (name : String) (payload : Payload) (rs : List String) :
    checkRequired name payload rs = Except.ok true ↔
      ∀ r ∈ rs, jsMissing (objGet payload r) = false := by
  induction rs with
  | nil => simp [checkRequired]
  | cons r rest ih =>
      by_cases h : jsMissing (objGet payload r) = true
      · simp [checkRequired, h]
      · simp only [Bool.not_eq_true] at h
        simp [checkRequired, h, ih]

theorem checkRequired_error_elim (name : String) (payload : Payload) (rs : List String)
    (e : String) (he : checkRequired name payload rs = Except.error e) :
    ∃ r ∈ rs, jsMissing (objGet payload r) = true ∧
      e = "Method " ++ name ++ " requires " ++ r ++ " parameter." := by
  induction rs with
  | nil => simp [checkRequired] at he
  | cons r rest ih =>
      by_cases h : jsMissing (objGet payload r) = true
      · simp only [checkRequired, h, if_true, Except.error.injEq] at he
        exact ⟨r, List.mem_cons_self r rest, h, he.symm⟩
      · simp only [checkRequired, h, if_false, Bool.not_eq_true] at he
        obtain ⟨r2, hr2, hmiss, hmsg⟩ := ih he
        exact ⟨r2, List.mem_cons_of_mem r hr2, hmiss, hmsg⟩

theorem objDelete_of_fresh (o : Payload) (k : String)
    (h : o.all (fun p => p.1 != k) = true) : objDelete o k = o := by
  rw [objDelete, List.filter_eq_self]
  intro p hp
  exact (List.all_eq_true.mp h) p hp

theorem objGet_of_fresh (o : Payload) (k : String)
    (h : o.all (fun p => p.1 != k) = true) : objGet o k = JsVal.undefVal := by
  rw [objGet]
  have hn : o.find? (fun p => p.1 == k) = none := by
    rw [List.find?_eq_none]
    intro p hp
    have := (List.all_eq_true.mp h) p hp
    simpa using this
  rw [hn]

theorem objSet_of_fresh (o : Payload) (k : String) (v : JsVal)
    (h : o.all (fun p => p.1 != k) = true) : objSet o k v = o ++ [(k, v)] := by
  rw [objSet]
  have hn : o.any (fun p => p.1 == k) = false := by
    rw [List.any_eq_false]
    intro p hp
    have := (List.all_eq_true.mp h) p hp
    simpa using this
  simp [hn]

theorem objGet_objDelete_self (o : Payload) (k : String) :
    objGet (objDelete o k) k = JsVal.undefVal := by
  rw [objGet]
  have hn : (objDelete o k).find? (fun p => p.1 == k) = none := by
    rw [List.find?_eq_none]
    intro p hp
    have := (List.mem_filter.mp hp).2
    simpa using this
  rw [hn]

theorem mem_objSet_self (o : Payload) (k : String) (v : JsVal) :
    (k, v) ∈ objSet o k v := by
  rw [objSet]
  by_cases h : o.any (fun p => p.1 == k) = true
  · rw [if_pos h]
    obtain ⟨p, hp, hpk⟩ := List.any_eq_true.mp h
    refine List.mem_map.mpr ⟨p, hp, ?_⟩
    simp [hpk]
  · rw [if_neg h]
    exact List.mem_append_right o (List.mem_singleton.mpr rfl)

theorem mem_objSet_of_ne (o : Payload) (k k2 : String) (v v2 : JsVal)
    (hne : k2 ≠ k) (hm : (k2, v2) ∈ o) : (k2, v2) ∈ objSet o k v := by
  rw [objSet]
  by_cases h : o.any (fun p => p.1 == k) = true
  · rw [if_pos h]
    refine List.mem_map.mpr ⟨(k2, v2), hm, ?_⟩
    simp [hne]
  · rw [if_neg h]
    exact List.mem_append_left _ hm

/-- Elimination form for a successful `privateCall`: the credentials are
non-empty and every field of the result is pinned to the source's
computation. -/
theorem privateCall_ok_elim (apiKey apiSecret base apiPathBase : String)
    (hmacSha256Hex : String → String → String) (env : ClockEnv) (a : PrivArgs)
    (r : PrivResult)
    (hok : privateCall apiKey apiSecret base apiPathBase hmacSha256Hex env a
      = Except.ok r) :
    apiKey ≠ "" ∧ apiSecret ≠ "" ∧
    r.usedTimestamp = (if wantsServerTime a then env.serverTime else env.clockTime) ∧
    r.callerData = a.data.map (fun d => objDelete d "useServerTime") ∧
    r.sigMessage = (makeQueryString (some (objSet
      ((a.data.map (fun d => objDelete d "useServerTime")).getD [])
      "timestamp" (JsVal.num r.usedTimestamp)))).drop 1 ∧
    r.signature = hmacSha256Hex apiSecret r.sigMessage ∧
    r.params = (if a.noExtra then a.data.map (fun d => objDelete d "useServerTime")
      else some (objSet (objSet
        ((a.data.map (fun d => objDelete d "useServerTime")).getD [])
        "timestamp" (JsVal.num r.usedTimestamp)) "signature" (JsVal.str r.signature))) ∧
    r.request.url = base
      ++ (if strContains a.path "/wapi" || strContains a.path "/sapi" then ""
          else "/" ++ apiPathBase)
      ++ a.path
      ++ (if a.noData then "" else makeQueryString r.params) ∧
    r.request.method = a.method ∧
    r.request.headers = [("X-MBX-APIKEY", apiKey)] ∧
    r.events = (if wantsServerTime a then [Event.serverTimeFetch] else [])
      ++ [Event.signCompute r.sigMessage, Event.mainRequest r.request.url] := by
  by_cases hcred : apiKey = "" ∨ apiSecret = ""
  · rw [privateCall, if_pos hcred] at hok
    exact absurd hok (by simp)
  · rw [privateCall, if_neg hcred] at hok
    obtain ⟨hk, hs⟩ := not_or.mp hcred
    simp only [Except.ok.injEq] at hok
    subst hok
    refine ⟨hk, hs, rfl, rfl, rfl, rfl, rfl, rfl, rfl, rfl, rfl⟩

/-! Claim theorems. -/

/-- C4 counterexample: the claim says an empty mapping yields the empty
string with no leading question mark, but `makeQueryString` applied to a
present empty mapping yields exactly the one-character string of a
question mark (a JS empty object is truthy); the spec-worded encoder
yields the empty string there. -/
theorem C4_counterexample :
    makeQueryString (some []) = "?" ∧ makeQueryString (some []) ≠ "" ∧
    specQueryString (some []) = "" := by
  refine ⟨rfl, ?_, rfl⟩
  decide

/-- C4 (amended): the Query Encoder omits every falsy-valued key, renders
the remaining pairs percent-encoded in insertion order joined by
ampersands after a leading question mark, and yields the empty string
for an absent mapping; a present mapping always carries the leading
question mark, even when empty or all-falsy. Stated as equality with the
independently written spec-side renderer amended only at that point. -/
theorem C4_queryEncoder (q : Option Payload) :
    makeQueryString q = specQueryStringAmended q := by
  cases q with
  | none => rfl
  | some m =>
      rw [makeQueryString, specQueryStringAmended, foldr_truthy_eq_filter_map]

/-- C5 counterexample: the claim says a required field holding an empty
string, null, or false is considered missing, but `checkParams` passes
all three (JS `isNaN` coerces them to `0`). -/
theorem C5_counterexample :
    checkParams "order" (some [("symbol", JsVal.str "")]) ["symbol"] = Except.ok true ∧
    checkParams "m" (some [("a", JsVal.null), ("b", JsVal.bool false)]) ["a", "b"]
      = Except.ok true := by
  exact ⟨rfl, rfl⟩

/-- C5 (amended): `checkParams` passes exactly when no required field's
value is falsy-and-NaN-coercing, and any failure is a Configuration
Error naming the method and a required field that is; a missing
(undefined) field and a NaN value fail, while numeric `0`, null, false
and the empty string all count as present and pass. -/
theorem C5_checkParams (name : String) (requires : List String) (payload : Payload) :
    (checkParams name (some payload) requires = Except.ok true ↔
      ∀ r ∈ requires, jsMissing (objGet payload r) = false) ∧
    (∀ e, checkParams name (some payload) requires = Except.error e →
      ∃ r ∈ requires, jsMissing (objGet payload r) = true ∧
        e = "Method " ++ name ++ " requires " ++ r ++ " parameter.") ∧
    (jsMissing JsVal.undefVal = true ∧ jsMissing JsVal.nan = true ∧
     jsMissing (JsVal.num 0) = false ∧ jsMissing JsVal.null = false ∧
     jsMissing (JsVal.bool false) = false ∧ jsMissing (JsVal.str "") = false) := by
  refine ⟨?_, ?_, by decide⟩
  · rw [checkParams]
    exact checkRequired_ok_iff name payload requires
  · intro e he
    rw [checkParams] at he
    exact checkRequired_error_elim name payload requires e he

/-- C5 witness: a concrete payload with a zero-valued numeric quantity
passes, through the pass-characterization of the amended theorem. -/
theorem C5_checkParams_witness :
    checkParams "order"
      (some [("symbol", JsVal.str "BTCUSDT"), ("side", JsVal.str "BUY"),
             ("quantity", JsVal.num 0)])
      ["symbol", "side", "quantity"] = Except.ok true :=
  (C5_checkParams "order" ["symbol", "side", "quantity"]
    [("symbol", JsVal.str "BTCUSDT"), ("side", JsVal.str "BUY"),
     ("quantity", JsVal.num 0)]).1.mpr (by decide)

/-- C8: evaluating `futuresOrder` at the spec's end-to-end input (symbol,
side, quantity, no type). The wrapper writes `type: LIMIT` onto the
caller's original payload only after spread-copying `newPayload`, so the
validated object never receives the injected type and validation throws
about the `type` field — not about `price` as the spec intends — and
does so even when `price` is supplied. -/
theorem C8_futuresOrder_eval :
    futuresOrder [("symbol", JsVal.str "BTCUSDT"), ("side", JsVal.str "BUY"),
                  ("quantity", JsVal.num 1)]
      = (Except.error "Method futuresOrder requires type parameter.",
         [("symbol", JsVal.str "BTCUSDT"), ("side", JsVal.str "BUY"),
          ("quantity", JsVal.num 1), ("type", JsVal.str "LIMIT")]) ∧
    futuresOrder [("symbol", JsVal.str "BTCUSDT"), ("side", JsVal.str "BUY"),
                  ("quantity", JsVal.num 1), ("price", JsVal.num 100)]
      = (Except.error "Method futuresOrder requires type parameter.",
         [("symbol", JsVal.str "BTCUSDT"), ("side", JsVal.str "BUY"),
          ("quantity", JsVal.num 1), ("price", JsVal.num 100),
          ("type", JsVal.str "LIMIT")]) := by
  exact ⟨rfl, rfl⟩

/-- C1: for every payload (with no `useServerTime` flag), secret and
clock value, a successful private call carries the signature
`hmacSha256Hex apiSecret m` where `m` is exactly the Query Encoder's
rendering of the payload extended with the `timestamp` key, with the
leading question mark dropped; and the result is deterministic: any two
successful runs over the same inputs agree on the signature. -/
theorem C1_signature_matches (apiKey apiSecret base apiPathBase : String)
    (hmacSha256Hex : String → String → String) (env : ClockEnv) (a : PrivArgs)
    (d : Payload) (r : PrivResult)
    (hd : a.data = some d)
    (hfresh : d.all (fun p => p.1 != "useServerTime") = true)
    (hok : privateCall apiKey apiSecret base apiPathBase hmacSha256Hex env a
      = Except.ok r) :
    r.signature = hmacSha256Hex apiSecret
      ((makeQueryString (some (objSet d "timestamp"
        (JsVal.num env.clockTime)))).drop 1) ∧
    ∀ r2, privateCall apiKey apiSecret base apiPathBase hmacSha256Hex env a
        = Except.ok r2 → r2.signature = r.signature := by
  obtain ⟨-, -, hts, -, hmsg, hsig, -⟩ :=
    privateCall_ok_elim apiKey apiSecret base apiPathBase hmacSha256Hex env a r hok
  have hwst : wantsServerTime a = false := by
    rw [wantsServerTime, hd]
    show (objGet d "useServerTime").truthy = false
    rw [objGet_of_fresh d "useServerTime" hfresh]
    rfl
  rw [hwst] at hts
  have hts2 : r.usedTimestamp = env.clockTime := hts.trans (by rfl)
  have e1 : ((a.data.map (fun x => objDelete x "useServerTime")).getD [])
      = objDelete d "useServerTime" := by
    rw [hd]
    rfl
  constructor
  · rw [hsig, hmsg, e1, objDelete_of_fresh d "useServerTime" hfresh, hts2]
  · intro r2 h2
    rw [hok, Except.ok.injEq] at h2
    rw [h2]

/-- C1 witness: the concrete call over `wArgs` succeeds and its signature
is the abstract HMAC of the rendered payload-plus-timestamp. -/
theorem C1_signature_matches_witness :
    privateCall "key" "secret" "B" "api" wHmac wEnv wArgs = Except.ok wPriv ∧
    wPriv.signature = wHmac "secret"
      ((makeQueryString (some (objSet wPayload "timestamp"
        (JsVal.num wEnv.clockTime)))).drop 1) :=
  ⟨rfl, (C1_signature_matches "key" "secret" "B" "api" wHmac wEnv wArgs
    wPayload wPriv rfl (by decide) rfl).1⟩

/-- C2: on a successful private call, when the payload carries a truthy
`useServerTime` flag the event trace is exactly the server-time fetch,
then the signature computation, then the main request — so the fetch
completes strictly before both — and the timestamp entering the
signature is the fetched server time; when the flag is not truthy (or
the payload is null) no server-time fetch happens and the configured
clock's value is used. -/
theorem C2_serverTimeOrdering (apiKey apiSecret base apiPathBase : String)
    (hmacSha256Hex : String → String → String) (env : ClockEnv) (a : PrivArgs)
    (r : PrivResult)
    (hok : privateCall apiKey apiSecret base apiPathBase hmacSha256Hex env a
      = Except.ok r) :
    (wantsServerTime a = true →
      r.events = [Event.serverTimeFetch, Event.signCompute r.sigMessage,
        Event.mainRequest r.request.url] ∧
      r.usedTimestamp = env.serverTime) ∧
    (wantsServerTime a = false →
      r.events = [Event.signCompute r.sigMessage, Event.mainRequest r.request.url] ∧
      Event.serverTimeFetch ∉ r.events ∧
      r.usedTimestamp = env.clockTime) := by
  obtain ⟨-, -, hts, -, -, -, -, -, -, -, hev⟩ :=
    privateCall_ok_elim apiKey apiSecret base apiPathBase hmacSha256Hex env a r hok
  constructor
  · intro h
    rw [h] at hts hev
    exact ⟨hev.trans (by rfl), hts.trans (by rfl)⟩
  · intro h
    rw [h] at hts hev
    have hev2 : r.events = [Event.signCompute r.sigMessage,
        Event.mainRequest r.request.url] := hev.trans (by rfl)
    refine ⟨hev2, ?_, hts.trans (by rfl)⟩
    rw [hev2]
    simp

/-- C2 witness: with `useServerTime` set the concrete trace is fetch,
sign, request and the timestamp is the server time 111; without it the
trace has no fetch and the timestamp is the clock value 222. -/
theorem C2_serverTimeOrdering_witness :
    (wantsServerTime wArgsST = true ∧
     privateCall "key" "secret" "B" "api" wHmac wEnv wArgsST = Except.ok wPrivST ∧
     wPrivST.events = [Event.serverTimeFetch, Event.signCompute wPrivST.sigMessage,
       Event.mainRequest wPrivST.request.url] ∧
     wPrivST.usedTimestamp = wEnv.serverTime) ∧
    (wantsServerTime wArgs = false ∧
     privateCall "key" "secret" "B" "api" wHmac wEnv wArgs = Except.ok wPriv ∧
     wPriv.events = [Event.signCompute wPriv.sigMessage,
       Event.mainRequest wPriv.request.url] ∧
     wPriv.usedTimestamp = wEnv.clockTime) := by
  have h1 := (C2_serverTimeOrdering "key" "secret" "B" "api" wHmac wEnv wArgsST
    wPrivST rfl).1 rfl
  have h2 := (C2_serverTimeOrdering "key" "secret" "B" "api" wHmac wEnv wArgs
    wPriv rfl).2 rfl
  exact ⟨⟨rfl, rfl, h1.1, h1.2⟩, ⟨rfl, rfl, h2.1, h2.2.2⟩⟩

/-- C3: every failed response produces an error; it is an API error
exactly when the body text parses as JSON, with message the parsed `msg`
field when that is truthy and `"<status> <statusText>"` otherwise and
the parsed `code` attached; it is a transport error exactly when the
body does not parse, with message `"<status> <statusText> <body>"` and
the raw response and body text attached — never both, never neither. -/
theorem C3_sendResult_classifies (parseJson : String → Option JsonBody)
    (res : Response) (hfail : res.ok = false) :
    (∃ e, sendResult parseJson res = Except.error e) ∧
    ((∃ m c, sendResult parseJson res = Except.error (CallError.apiError m c)) ↔
      (parseJson res.bodyText).isSome = true) ∧
    (∀ j, parseJson res.bodyText = some j →
      sendResult parseJson res = Except.error (CallError.apiError
        (if j.msg.truthy then j.msg.toStr
         else toString res.status ++ " " ++ res.statusText) j.code)) ∧
    (parseJson res.bodyText = none →
      sendResult parseJson res = Except.error (CallError.transportError
        (toString res.status ++ " " ++ res.statusText ++ " " ++ res.bodyText)
        res res.bodyText)) := by
  rw [sendResult, if_neg (by simp [hfail])]
  cases hp : parseJson res.bodyText with
  | some j =>
      refine ⟨⟨_, rfl⟩, ?_, ?_, ?_⟩
      · simp
      · intro j2 hj2
        rw [Option.some.injEq] at hj2
        subst hj2
        rfl
      · intro hnone
        exact absurd hnone (by simp)
  | none =>
      refine ⟨⟨_, rfl⟩, ?_, ?_, ?_⟩
      · simp
      · intro j2 hj2
        exact absurd hj2 (by simp)
      · intro _
        rfl

/-- C3 witness: the spec's two examples. A failed response whose body
parses with `msg` "Invalid symbol." and `code` -1121 yields that API
error; a failed response with an HTML body yields a transport error
whose message carries the status line and the raw body. -/
theorem C3_sendResult_witness :
    sendResult wParse wRes1 = Except.error (CallError.apiError
      "Invalid symbol." (JsVal.num (-1121))) ∧
    sendResult wParse wRes2 = Except.error (CallError.transportError
      "502 Bad Gateway <html>502 Bad Gateway</html>" wRes2
      "<html>502 Bad Gateway</html>") :=
  ⟨(C3_sendResult_classifies wParse wRes1 rfl).2.2.1
      { msg := JsVal.str "Invalid symbol.", code := JsVal.num (-1121) } rfl,
   (C3_sendResult_classifies wParse wRes2 rfl).2.2.2 rfl⟩

/-- C6: on a successful private call over a payload free of the
`useServerTime`, `timestamp` and `signature` keys, the final request
parameters are the payload unmodified when `noExtra` is set and the
payload with `timestamp` and `signature` appended otherwise, and the
URL is the base, then an empty path-prefix segment for paths containing
`/wapi` or `/sapi` and `/<apiPathBase>` otherwise, then the path, then
an empty query under `noData` and the Query Encoder's rendering of the
final parameters otherwise. -/
theorem C6_finalParamsAndUrl (apiKey apiSecret base apiPathBase : String)
    (hmacSha256Hex : String → String → String) (env : ClockEnv) (a : PrivArgs)
    (d : Payload) (r : PrivResult)
    (hd : a.data = some d)
    (hfresh : d.all (fun p =>
      p.1 != "useServerTime" && p.1 != "timestamp" && p.1 != "signature") = true)
    (hok : privateCall apiKey apiSecret base apiPathBase hmacSha256Hex env a
      = Except.ok r) :
    r.params = (if a.noExtra then some d
      else some (d ++ [("timestamp", JsVal.num r.usedTimestamp),
                       ("signature", JsVal.str r.signature)])) ∧
    r.request.url = base
      ++ (if strContains a.path "/wapi" || strContains a.path "/sapi" then ""
          else "/" ++ apiPathBase)
      ++ a.path
      ++ (if a.noData then "" else makeQueryString r.params) := by
  obtain ⟨-, -, -, -, -, -, hparams, hurl, -⟩ :=
    privateCall_ok_elim apiKey apiSecret base apiPathBase hmacSha256Hex env a r hok
  have hall := List.all_eq_true.mp hfresh
  have hfreshU : d.all (fun p => p.1 != "useServerTime") = true := by
    rw [List.all_eq_true]
    intro p hp
    have h := hall p hp
    simp only [Bool.and_eq_true] at h
    exact h.1.1
  have hfreshT : d.all (fun p => p.1 != "timestamp") = true := by
    rw [List.all_eq_true]
    intro p hp
    have h := hall p hp
    simp only [Bool.and_eq_true] at h
    exact h.1.2
  have hfreshS : d.all (fun p => p.1 != "signature") = true := by
    rw [List.all_eq_true]
    intro p hp
    have h := hall p hp
    simp only [Bool.and_eq_true] at h
    exact h.2
  have hdel : objDelete d "useServerTime" = d := objDelete_of_fresh d _ hfreshU
  have hsetT : objSet d "timestamp" (JsVal.num r.usedTimestamp)
      = d ++ [("timestamp", JsVal.num r.usedTimestamp)] :=
    objSet_of_fresh d _ _ hfreshT
  have hfreshS2 : (d ++ [("timestamp", JsVal.num r.usedTimestamp)]).all
      (fun p => p.1 != "signature") = true := by
    rw [List.all_append, hfreshS]
    rfl
  have hsetS : objSet (d ++ [("timestamp", JsVal.num r.usedTimestamp)])
      "signature" (JsVal.str r.signature)
      = d ++ [("timestamp", JsVal.num r.usedTimestamp),
              ("signature", JsVal.str r.signature)] := by
    rw [objSet_of_fresh _ _ _ hfreshS2, List.append_assoc]
    rfl
  have e1 : ((a.data.map (fun x => objDelete x "useServerTime")).getD [])
      = objDelete d "useServerTime" := by
    rw [hd]
    rfl
  have e2 : a.data.map (fun x => objDelete x "useServerTime")
      = some (objDelete d "useServerTime") := by
    rw [hd]
    rfl
  rw [e1, e2, hdel, hsetT, hsetS] at hparams
  exact ⟨hparams, hurl⟩

/-- C6 witness: the concrete call over `wArgs` (no `noExtra`, no
`noData`) appends timestamp and signature and renders them into the
URL after the `/api` path-prefix segment. -/
theorem C6_finalParamsAndUrl_witness :
    privateCall "key" "secret" "B" "api" wHmac wEnv wArgs = Except.ok wPriv ∧
    wPriv.params = some (wPayload ++ [("timestamp", JsVal.num wPriv.usedTimestamp),
      ("signature", JsVal.str wPriv.signature)]) ∧
    wPriv.request.url = "B" ++ "/" ++ "api" ++ "/v3/order"
      ++ makeQueryString wPriv.params := by
  have h := C6_finalParamsAndUrl "key" "secret" "B" "api" wHmac wEnv wArgs
    wPayload wPriv rfl (by decide) rfl
  exact ⟨rfl, h.1, h.2⟩

/-- C7: the Key Caller fails with the configuration message when no API
key is configured and otherwise delegates to the Public Caller with the
`X-MBX-APIKEY` header injected; the Private Caller fails with its
configuration message when the key or the secret is missing; in the
error cases no request value is produced at all, and every successful
private call carries the `X-MBX-APIKEY` header. -/
theorem C7_credentialGuards (apiKey apiSecret base apiPathBase : String)
    (pa : PubArgs) (hmacSha256Hex : String → String → String) (env : ClockEnv)
    (a : PrivArgs) :
    (apiKey = "" → keyCall apiKey base apiPathBase pa =
      Except.error "You need to pass an API key to make this call.") ∧
    (apiKey ≠ "" → keyCall apiKey base apiPathBase pa =
      Except.ok (publicCall base apiPathBase
        { path := pa.path, data := pa.data, method := pa.method,
          headers := [("X-MBX-APIKEY", apiKey)] })) ∧
    ((apiKey = "" ∨ apiSecret = "") →
      privateCall apiKey apiSecret base apiPathBase hmacSha256Hex env a =
        Except.error
          "You need to pass an API key and secret to make authenticated calls.") ∧
    (∀ r, privateCall apiKey apiSecret base apiPathBase hmacSha256Hex env a
        = Except.ok r → r.request.headers = [("X-MBX-APIKEY", apiKey)]) := by
  refine ⟨?_, ?_, ?_, ?_⟩
  · intro h
    rw [keyCall, if_pos h]
  · intro h
    rw [keyCall, if_neg h]
  · intro h
    rw [privateCall, if_pos h]
  · intro r h
    obtain ⟨-, -, -, -, -, -, -, -, -, hh, -⟩ :=
      privateCall_ok_elim apiKey apiSecret base apiPathBase hmacSha256Hex env a r h
    exact hh

/-- C7 witness: an empty key makes `keyCall` fail, a non-empty key makes
it delegate with the header, and an empty secret makes `privateCall`
fail. -/
theorem C7_credentialGuards_witness :
    keyCall "" "B" "api" wPub =
      Except.error "You need to pass an API key to make this call." ∧
    keyCall "key" "B" "api" wPub = Except.ok (publicCall "B" "api"
      { path := wPub.path, data := wPub.data, method := wPub.method,
        headers := [("X-MBX-APIKEY", "key")] }) ∧
    privateCall "key" "" "B" "api" wHmac wEnv wArgs = Except.error
      "You need to pass an API key and secret to make authenticated calls." :=
  ⟨(C7_credentialGuards "" "" "B" "api" wPub wHmac wEnv wArgs).1 rfl,
   (C7_credentialGuards "key" "" "B" "api" wPub wHmac wEnv wArgs).2.1 (by decide),
   (C7_credentialGuards "key" "" "B" "api" wPub wHmac wEnv wArgs).2.2.1 (Or.inr rfl)⟩

/-- C9: on a successful private call over a present payload, the
caller's data object as the call leaves it is the original with the
`useServerTime` key deleted — a read of that key afterwards yields
`undefined` — while the timestamp resolution read the flag from the
original payload, and the signing message was computed from the already
erased payload. -/
theorem C9_payloadMutation (apiKey apiSecret base apiPathBase : String)
    (hmacSha256Hex : String → String → String) (env : ClockEnv) (a : PrivArgs)
    (d : Payload) (r : PrivResult)
    (hd : a.data = some d)
    (hok : privateCall apiKey apiSecret base apiPathBase hmacSha256Hex env a
      = Except.ok r) :
    r.callerData = some (objDelete d "useServerTime") ∧
    objGet ((r.callerData).getD []) "useServerTime" = JsVal.undefVal ∧
    r.usedTimestamp = (if (objGet d "useServerTime").truthy then env.serverTime
      else env.clockTime) ∧
    r.sigMessage = (makeQueryString (some (objSet (objDelete d "useServerTime")
      "timestamp" (JsVal.num r.usedTimestamp)))).drop 1 := by
  obtain ⟨-, -, hts, hcd, hmsg, -⟩ :=
    privateCall_ok_elim apiKey apiSecret base apiPathBase hmacSha256Hex env a r hok
  have hwst : wantsServerTime a = (objGet d "useServerTime").truthy := by
    rw [wantsServerTime, hd]
  have hcd2 : r.callerData = some (objDelete d "useServerTime") :=
    hcd.trans (by rw [hd]; rfl)
  have e1 : ((a.data.map (fun x => objDelete x "useServerTime")).getD [])
      = objDelete d "useServerTime" := by
    rw [hd]
    rfl
  rw [e1] at hmsg
  refine ⟨hcd2, ?_, ?_, hmsg⟩
  · rw [hcd2]
    exact objGet_objDelete_self d "useServerTime"
  · rw [hts, hwst]

/-- C9 witness: the concrete call over the `useServerTime` payload leaves
the caller's object without that key, resolved the timestamp from the
flag, and signed the erased payload. -/
theorem C9_payloadMutation_witness :
    privateCall "key" "secret" "B" "api" wHmac wEnv wArgsST = Except.ok wPrivST ∧
    wPrivST.callerData = some (objDelete wPayloadST "useServerTime") ∧
    objGet ((wPrivST.callerData).getD []) "useServerTime" = JsVal.undefVal ∧
    wPrivST.usedTimestamp = (if (objGet wPayloadST "useServerTime").truthy
      then wEnv.serverTime else wEnv.clockTime) ∧
    wPrivST.sigMessage = (makeQueryString (some (objSet
      (objDelete wPayloadST "useServerTime") "timestamp"
      (JsVal.num wPrivST.usedTimestamp)))).drop 1 := by
  have h := C9_payloadMutation "key" "secret" "B" "api" wHmac wEnv wArgsST
    wPayloadST wPrivST rfl rfl
  exact ⟨rfl, h.1, h.2.1, h.2.2.1, h.2.2.2⟩

/-- C10: `privateCall` reads only the option named `noExtra` — changing
`noExtraData` never changes the result — and the four data-stream
keep/close operations pass `noExtraData`, so their successful calls
still carry `timestamp` and `signature` in the final parameters and
render them into the issued URL's query string. -/
theorem C10_noExtraDataIgnored (apiKey apiSecret base apiPathBase : String)
    (hmacSha256Hex : String → String → String) (env : ClockEnv) :
    (∀ (a : PrivArgs) (b : Bool),
      privateCall apiKey apiSecret base apiPathBase hmacSha256Hex env
        { a with noExtraData := b }
      = privateCall apiKey apiSecret base apiPathBase hmacSha256Hex env a) ∧
    (∀ path method payload r,
      privateCall apiKey apiSecret base apiPathBase hmacSha256Hex env
        (dataStreamArgs path method payload) = Except.ok r →
      ("timestamp", JsVal.num r.usedTimestamp) ∈ (r.params).getD [] ∧
      ("signature", JsVal.str r.signature) ∈ (r.params).getD [] ∧
      r.request.url = base
        ++ (if strContains path "/wapi" || strContains path "/sapi" then ""
            else "/" ++ apiPathBase)
        ++ path ++ makeQueryString r.params) ∧
    (∀ payload,
      keepDataStream apiKey apiSecret base apiPathBase hmacSha256Hex env payload
      = privateCall apiKey apiSecret base apiPathBase hmacSha256Hex env
          (dataStreamArgs "/v1/userDataStream" "PUT" payload)) ∧
    (∀ payload,
      closeDataStream apiKey apiSecret base apiPathBase hmacSha256Hex env payload
      = privateCall apiKey apiSecret base apiPathBase hmacSha256Hex env
          (dataStreamArgs "/v1/userDataStream" "DELETE" payload)) ∧
    (∀ payload,
      futuresKeepUserDataStream apiKey apiSecret base apiPathBase hmacSha256Hex
        env payload
      = privateCall apiKey apiSecret base apiPathBase hmacSha256Hex env
          (dataStreamArgs "/v1/listenKey" "PUT" payload)) ∧
    (∀ payload,
      futuresCloseUserDataStream apiKey apiSecret base apiPathBase hmacSha256Hex
        env payload
      = privateCall apiKey apiSecret base apiPathBase hmacSha256Hex env
          (dataStreamArgs "/v1/listenKey" "DELETE" payload)) := by
  refine ⟨?_, ?_, fun _ => rfl, fun _ => rfl, fun _ => rfl, fun _ => rfl⟩
  · intro a b
    cases a
    rfl
  · intro path method payload r hok
    obtain ⟨-, -, -, -, -, -, hparams, hurl, -⟩ :=
      privateCall_ok_elim apiKey apiSecret base apiPathBase hmacSha256Hex env
        (dataStreamArgs path method payload) r hok
    have hparams2 : r.params = some (objSet (objSet
        ((payload.map (fun x => objDelete x "useServerTime")).getD [])
        "timestamp" (JsVal.num r.usedTimestamp))
        "signature" (JsVal.str r.signature)) := hparams.trans (by rfl)
    refine ⟨?_, ?_, hurl.trans (by rfl)⟩
    · rw [hparams2]
      exact mem_objSet_of_ne _ "signature" "timestamp" _ _ (by decide)
        (mem_objSet_self _ "timestamp" _)
    · rw [hparams2]
      exact mem_objSet_self _ "signature" _

/-- C10 witness: the concrete keep-data-stream call succeeds and its
final parameters contain the appended timestamp and signature. -/
theorem C10_noExtraDataIgnored_witness :
    privateCall "key" "secret" "B" "api" wHmac wEnv
      (dataStreamArgs "/v1/userDataStream" "PUT" wDSPayload) = Except.ok wDS ∧
    ("timestamp", JsVal.num wDS.usedTimestamp) ∈ (wDS.params).getD [] ∧
    ("signature", JsVal.str wDS.signature) ∈ (wDS.params).getD [] := by
  have h := (C10_noExtraDataIgnored "key" "secret" "B" "api" wHmac wEnv).2.1
    "/v1/userDataStream" "PUT" wDSPayload wDS rfl
  exact ⟨rfl, h.1, h.2.1⟩

end BinanceHttp
